import Mathlib

/-!
Verification of `monitor-control-win` (Rust) against its specification.

The development shallowly embeds the relevant parts of the four source
files (`src/lib.rs`, `src/monitor.rs`, `src/physical_monitor.rs`,
`src/display.rs`).  Machine integers are modelled as `Nat`/`Int` with
explicit `% 2 ^ w` where the Rust code can wrap (release-mode semantics),
`f32` values are modelled as rationals together with an explicit
round-to-nearest rounding function (`roundF32`; no rounding tie is hit by
any computation in this development, so the half-up tie rule of `round`
agrees with IEEE round-to-nearest-even everywhere it is evaluated),
fallible code returns `Except`, and panics are modelled by `Option.none`.
-/

/-! ## A computable model of IEEE-754 binary32 rounding over ℚ

`display.rs` converts integers to `f32` and divides `f32` values.  All
values appearing there stay inside the positive normal range of
`binary32`, where rounding a positive real `q` means: pick the exponent
`e` with `2 ^ 23 ≤ q / 2 ^ e < 2 ^ 24` and round `q / 2 ^ e` to the
nearest integer.  The base-2 logarithms are implemented by structural
(fuel) recursion so the kernel can evaluate them, and proved equal to
Mathlib's `Nat.log` / `Nat.clog` / `Int.log`.
-/

/-- Fuel-driven floor logarithm base 2; agrees with `Nat.log 2 n` whenever
`n ≤ fuel`. -/
def log2fuel : ℕ → ℕ → ℕ
  | 0, _ => 0
  | fuel + 1, n => if 2 ≤ n then log2fuel fuel (n / 2) + 1 else 0

/-- Floor logarithm base 2, kernel-computable. -/
def natLog2 (n : ℕ) : ℕ := log2fuel n n

/-- Fuel-driven ceiling logarithm base 2; agrees with `Nat.clog 2 n`
whenever `n ≤ fuel`. -/
def clog2fuel : ℕ → ℕ → ℕ
  | 0, _ => 0
  | fuel + 1, n => if 2 ≤ n then clog2fuel fuel ((n + 1) / 2) + 1 else 0

/-- Ceiling logarithm base 2, kernel-computable. -/
def natClog2 (n : ℕ) : ℕ := clog2fuel n n

/-- Floor logarithm base 2 of a positive rational, kernel-computable. -/
def ratLog2 (q : ℚ) : ℤ :=
  if 1 ≤ q then (natLog2 ⌊q⌋₊ : ℤ) else -(natClog2 ⌈q⁻¹⌉₊ : ℤ)

theorem log2fuel_eq (fuel : ℕ) : ∀ n : ℕ, n ≤ fuel → log2fuel fuel n = Nat.log 2 n := by
  induction fuel with
  | zero =>
    intro n hn
    have hn0 : n = 0 := Nat.le_zero.mp hn
    subst hn0
    simp [log2fuel]
  | succ f ih =>
    intro n hn
    simp only [log2fuel]
    by_cases h2 : 2 ≤ n
    · rw [if_pos h2, ih (n / 2) (by omega)]
      conv_rhs => rw [Nat.log]
      rw [dif_pos ⟨h2, one_lt_two⟩]
    · rw [if_neg h2, Nat.log_of_lt (by omega)]

theorem natLog2_eq (n : ℕ) : natLog2 n = Nat.log 2 n := log2fuel_eq n n le_rfl

theorem clog2fuel_eq (fuel : ℕ) : ∀ n : ℕ, n ≤ fuel → clog2fuel fuel n = Nat.clog 2 n := by
  induction fuel with
  | zero =>
    intro n hn
    have hn0 : n = 0 := Nat.le_zero.mp hn
    subst hn0
    simp [clog2fuel]
  | succ f ih =>
    intro n hn
    simp only [clog2fuel]
    by_cases h2 : 2 ≤ n
    · rw [if_pos h2, ih ((n + 1) / 2) (by omega)]
      conv_rhs => rw [Nat.clog]
      rw [dif_pos ⟨one_lt_two, by omega⟩]
      norm_num
    · rw [if_neg h2, Nat.clog_of_right_le_one (by omega)]

theorem natClog2_eq (n : ℕ) : natClog2 n = Nat.clog 2 n := clog2fuel_eq n n le_rfl

theorem ratLog2_eq (q : ℚ) : ratLog2 q = Int.log 2 q := by
  unfold ratLog2
  by_cases h : 1 ≤ q
  · rw [if_pos h, Int.log_of_one_le_right 2 h, natLog2_eq]
  · rw [if_neg h, Int.log_of_right_le_one 2 (le_of_not_le h), natClog2_eq]

/-- Round a rational to the nearest `binary32` value (positive normal
range; `0` for non-positive input, which is the only non-positive value
the embedded code ever rounds). -/
def roundF32 (q : ℚ) : ℚ :=
  if 0 < q then (round (q / 2 ^ (ratLog2 q - 23)) : ℚ) * 2 ^ (ratLog2 q - 23) else 0

theorem roundF32_pos_eq (q : ℚ) (hq : 0 < q) :
    roundF32 q = (round (q / 2 ^ (Int.log 2 q - 23)) : ℚ) * 2 ^ (Int.log 2 q - 23) := by
  rw [roundF32, if_pos hq, ratLog2_eq]

theorem two_zpow_pos (e : ℤ) : (0 : ℚ) < 2 ^ e := zpow_pos (by norm_num) e

theorem int_log_le (q : ℚ) (hq : 0 < q) : (2 : ℚ) ^ Int.log 2 q ≤ q := by
  have h := Int.zpow_log_le_self (show (1 : ℕ) < 2 by norm_num) hq
  push_cast at h
  exact h

theorem int_log_lt (q : ℚ) : q < (2 : ℚ) ^ (Int.log 2 q + 1) := by
  have h := Int.lt_zpow_succ_log_self (show (1 : ℕ) < 2 by norm_num) q
  push_cast at h
  exact h

theorem le_int_log (e : ℤ) (q : ℚ) (hq : 0 < q) (h : (2 : ℚ) ^ e ≤ q) : e ≤ Int.log 2 q := by
  have h2 : ((2 : ℕ) : ℚ) ^ e ≤ q := by push_cast; exact h
  exact (Int.zpow_le_iff_le_log (show (1 : ℕ) < 2 by norm_num) hq).mp h2

theorem int_log_lt_of (e : ℤ) (q : ℚ) (hq : 0 < q) (h : q < (2 : ℚ) ^ e) : Int.log 2 q < e := by
  have h2 : q < ((2 : ℕ) : ℚ) ^ e := by push_cast; exact h
  exact (Int.lt_zpow_iff_log_lt (show (1 : ℕ) < 2 by norm_num) hq).mp h2

/-- The significand produced when rounding a positive rational sits in
`[2 ^ 23, 2 ^ 24]`. -/
theorem round_sig_bounds (q : ℚ) (hq : 0 < q) :
    (8388608 : ℤ) ≤ round (q / 2 ^ (Int.log 2 q - 23))
      ∧ round (q / 2 ^ (Int.log 2 q - 23)) ≤ 16777216 := by
  have h2 : (0 : ℚ) < 2 ^ (Int.log 2 q - 23) := two_zpow_pos _
  have hlow : (8388608 : ℚ) ≤ q / 2 ^ (Int.log 2 q - 23) := by
    rw [le_div_iff₀ h2]
    have hpow : (8388608 : ℚ) * 2 ^ (Int.log 2 q - 23) = 2 ^ Int.log 2 q := by
      rw [show (8388608 : ℚ) = 2 ^ (23 : ℤ) by norm_num,
        ← zpow_add₀ (two_ne_zero) 23 (Int.log 2 q - 23)]
      congr 1
      ring
    rw [hpow]
    exact int_log_le q hq
  have hhigh : q / 2 ^ (Int.log 2 q - 23) < (16777216 : ℚ) := by
    rw [div_lt_iff₀ h2]
    have hpow : (16777216 : ℚ) * 2 ^ (Int.log 2 q - 23) = 2 ^ (Int.log 2 q + 1) := by
      rw [show (16777216 : ℚ) = 2 ^ (24 : ℤ) by norm_num,
        ← zpow_add₀ (two_ne_zero) 24 (Int.log 2 q - 23)]
      congr 1
      ring
    rw [hpow]
    exact int_log_lt q
  have habs := abs_sub_round (q / 2 ^ (Int.log 2 q - 23))
  rw [abs_le] at habs
  constructor
  · by_contra hc
    push_neg at hc
    have hle : round (q / 2 ^ (Int.log 2 q - 23)) ≤ (8388607 : ℤ) := by omega
    have hleq : ((round (q / 2 ^ (Int.log 2 q - 23)) : ℤ) : ℚ) ≤ (8388607 : ℚ) := by
      exact_mod_cast hle
    linarith [habs.2]
  · by_contra hc
    push_neg at hc
    have hle : (16777217 : ℤ) ≤ round (q / 2 ^ (Int.log 2 q - 23)) := by omega
    have hleq : (16777217 : ℚ) ≤ ((round (q / 2 ^ (Int.log 2 q - 23)) : ℤ) : ℚ) := by
      exact_mod_cast hle
    linarith [habs.1]

theorem roundF32_bounds (q : ℚ) (hq : 0 < q) :
    (2 : ℚ) ^ Int.log 2 q ≤ roundF32 q ∧ roundF32 q ≤ 2 ^ (Int.log 2 q + 1) := by
  obtain ⟨hm1, hm2⟩ := round_sig_bounds q hq
  rw [roundF32_pos_eq q hq]
  have he : (0 : ℚ) ≤ 2 ^ (Int.log 2 q - 23) := (two_zpow_pos _).le
  constructor
  · calc (2 : ℚ) ^ Int.log 2 q = (8388608 : ℚ) * 2 ^ (Int.log 2 q - 23) := by
          rw [show (8388608 : ℚ) = 2 ^ (23 : ℤ) by norm_num,
            ← zpow_add₀ (two_ne_zero) 23 (Int.log 2 q - 23)]
          congr 1
          ring
      _ ≤ _ := by
          apply mul_le_mul_of_nonneg_right _ he
          exact_mod_cast hm1
  · calc (round (q / 2 ^ (Int.log 2 q - 23)) : ℚ) * 2 ^ (Int.log 2 q - 23)
        ≤ (16777216 : ℚ) * 2 ^ (Int.log 2 q - 23) := by
          apply mul_le_mul_of_nonneg_right _ he
          exact_mod_cast hm2
      _ = 2 ^ (Int.log 2 q + 1) := by
          rw [show (16777216 : ℚ) = 2 ^ (24 : ℤ) by norm_num,
            ← zpow_add₀ (two_ne_zero) 24 (Int.log 2 q - 23)]
          congr 1
          ring

theorem roundF32_pos (q : ℚ) (hq : 0 < q) : 0 < roundF32 q :=
  lt_of_lt_of_le (two_zpow_pos (Int.log 2 q)) (roundF32_bounds q hq).1

theorem roundF32_nonneg (q : ℚ) : 0 ≤ roundF32 q := by
  by_cases hq : 0 < q
  · exact (roundF32_pos q hq).le
  · rw [roundF32, if_neg hq]

theorem roundF32_mono (q₁ q₂ : ℚ) (h0 : 0 ≤ q₁) (h12 : q₁ ≤ q₂) :
    roundF32 q₁ ≤ roundF32 q₂ := by
  rcases eq_or_lt_of_le h0 with h | hq1
  · rw [← h, roundF32, if_neg (lt_irrefl 0)]
    exact roundF32_nonneg q₂
  · have hq2 : 0 < q₂ := lt_of_lt_of_le hq1 h12
    have hL : Int.log 2 q₁ ≤ Int.log 2 q₂ := Int.log_mono_right hq1 h12
    rcases eq_or_lt_of_le hL with hEq | hLt
    · rw [roundF32_pos_eq q₁ hq1, roundF32_pos_eq q₂ hq2, hEq]
      apply mul_le_mul_of_nonneg_right _ (two_zpow_pos _).le
      have hr : round (q₁ / 2 ^ (Int.log 2 q₂ - 23)) ≤ round (q₂ / 2 ^ (Int.log 2 q₂ - 23)) := by
        rw [round_eq, round_eq]
        apply Int.floor_mono
        have : q₁ / 2 ^ (Int.log 2 q₂ - 23) ≤ q₂ / 2 ^ (Int.log 2 q₂ - 23) := by gcongr
        linarith
      exact_mod_cast hr
    · calc roundF32 q₁ ≤ 2 ^ (Int.log 2 q₁ + 1) := (roundF32_bounds q₁ hq1).2
        _ ≤ 2 ^ Int.log 2 q₂ := zpow_le_zpow_right₀ one_le_two (by omega)
        _ ≤ roundF32 q₂ := (roundF32_bounds q₂ hq2).1

theorem roundF32_double (q : ℚ) (hq : 0 ≤ q) : roundF32 (2 * q) = 2 * roundF32 q := by
  rcases eq_or_lt_of_le hq with h0 | hpos
  · rw [← h0]
    norm_num [roundF32]
  · have hq2 : 0 < 2 * q := by linarith
    have hlog : Int.log 2 (2 * q) = Int.log 2 q + 1 := by
      apply le_antisymm
      · have h1 : 2 * q < (2 : ℚ) ^ (Int.log 2 q + 1 + 1) := by
          have h2 := int_log_lt q
          calc 2 * q < 2 * (2 : ℚ) ^ (Int.log 2 q + 1) := by linarith
            _ = (2 : ℚ) ^ (Int.log 2 q + 1 + 1) := by
                rw [zpow_add_one₀ (two_ne_zero) (Int.log 2 q + 1)]
                ring
        have := int_log_lt_of (Int.log 2 q + 1 + 1) (2 * q) hq2 h1
        omega
      · apply le_int_log _ _ hq2
        rw [zpow_add_one₀ (two_ne_zero) (Int.log 2 q)]
        have := int_log_le q hpos
        linarith
    rw [roundF32_pos_eq _ hq2, roundF32_pos_eq _ hpos, hlog,
      show Int.log 2 q + 1 - 23 = Int.log 2 q - 23 + 1 by ring,
      zpow_add_one₀ (two_ne_zero) (Int.log 2 q - 23)]
    have hne : ((2 : ℚ) ^ (Int.log 2 q - 23)) ≠ 0 := (two_zpow_pos _).ne'
    have harg : 2 * q / (2 ^ (Int.log 2 q - 23) * 2) = q / 2 ^ (Int.log 2 q - 23) := by
      field_simp
      ring
    rw [harg]
    ring

/-- Evaluation lemma: computes `roundF32` on an explicit non-negative
rational `n / d ≥ 1`, reducing everything to kernel-checkable natural
number facts. -/
theorem roundF32_eval (q : ℚ) (n d L m : ℕ) (hd : 0 < d) (hdn : d ≤ n)
    (hq : q = (n : ℚ) / (d : ℚ)) (hL : natLog2 (n / d) = L)
    (hm : (2 * (n * 2 ^ 23) + d * 2 ^ L) / (2 * (d * 2 ^ L)) = m) :
    roundF32 q = (m : ℚ) * 2 ^ L / 2 ^ 23 := by
  have hd0 : (0 : ℚ) < d := by exact_mod_cast hd
  have hdne : (d : ℚ) ≠ 0 := ne_of_gt hd0
  have hq1 : 1 ≤ q := by
    rw [hq, le_div_iff₀ hd0, one_mul]
    exact_mod_cast hdn
  have hqpos : 0 < q := lt_of_lt_of_le one_pos hq1
  have hlog : Int.log 2 q = (L : ℤ) := by
    rw [← ratLog2_eq, ratLog2, if_pos hq1, hq, Nat.floor_div_nat, Nat.floor_natCast, hL]
  rw [roundF32_pos_eq q hqpos, hlog]
  have hL2ne : ((2 : ℚ) ^ (L : ℕ)) ≠ 0 := by positivity
  have hxeq : q / 2 ^ ((L : ℤ) - 23) = ((n * 2 ^ 23 : ℕ) : ℚ) / ((d * 2 ^ L : ℕ) : ℚ) := by
    rw [hq, zpow_sub₀ (two_ne_zero) (L : ℤ) 23, zpow_natCast]
    push_cast
    rw [show ((2 : ℚ) ^ (23 : ℤ)) = (2 : ℚ) ^ (23 : ℕ) by norm_num]
    field_simp
    ring_nf
    simp
  have hB : (0 : ℚ) < ((d * 2 ^ L : ℕ) : ℚ) := by
    have : 0 < d * 2 ^ L := by positivity
    exact_mod_cast this
  have hround : round (((n * 2 ^ 23 : ℕ) : ℚ) / ((d * 2 ^ L : ℕ) : ℚ)) = (m : ℤ) := by
    rw [round_eq]
    have hstep : ((n * 2 ^ 23 : ℕ) : ℚ) / ((d * 2 ^ L : ℕ) : ℚ) + 1 / 2
        = (((2 * (n * 2 ^ 23) + d * 2 ^ L : ℕ) : ℤ) : ℚ) / ((2 * (d * 2 ^ L) : ℕ) : ℚ) := by
      push_cast
      field_simp
      ring
    rw [hstep, Rat.floor_intCast_div_natCast]
    exact_mod_cast hm
  rw [hxeq, hround, zpow_sub₀ (two_ne_zero) (L : ℤ) 23, zpow_natCast,
    show ((2 : ℚ) ^ (23 : ℤ)) = (2 : ℚ) ^ (23 : ℕ) by norm_num]
  push_cast
  ring

/-! ## The fixed-point decoders of `display.rs`

Source (display.rs, lines 474-485):

fn fxp230_to_f32(fxp: i32) -> f32 \x7b
    const ONE_BILLION: u64 = 1_000_000_000;
    const TWO_THIRTY: u64 = 1 << 30;
    let n = (fxp as u64 * ONE_BILLION) / TWO_THIRTY;
    n as f32 / ONE_BILLION as f32
\x7d

fn fxp_8dot8_to_f32(fxp: u32) -> f32 \x7b
    const EIGHT_ZEROS: f32 = 1_000_000_000_f32;
    (fxp as f32) / EIGHT_ZEROS
\x7d

`fxp as u64` sign-extends the `i32`, i.e. takes `fxp mod 2 ^ 64`; the
`u64` multiplication wraps modulo `2 ^ 64` (release-mode semantics).  The
`f32` literal `1_000_000_000_f32` is exactly `10 ^ 9` (it is
representable), and `n as f32` rounds to nearest.
-/

/-- Conversion of an unsigned integer to `f32` (round to nearest). -/
def natToF32 (n : ℕ) : ℚ := roundF32 (n : ℚ)

/-- Division of two `f32` values (exact quotient, then rounding). -/
def f32Div (a b : ℚ) : ℚ := roundF32 (a / b)

/-- Embedding of `fxp230_to_f32` from display.rs. -/
def fxp230_to_f32 (fxp : ℤ) : ℚ :=
  f32Div (natToF32 ((fxp % (2 ^ 64 : ℤ)).toNat * 1000000000 % 2 ^ 64 / 2 ^ 30))
    (natToF32 1000000000)

/-- Embedding of `fxp_8dot8_to_f32` from display.rs. -/
def fxp_8dot8_to_f32 (fxp : ℕ) : ℚ := f32Div (natToF32 fxp) 1000000000

theorem natToF32_nonneg (n : ℕ) : 0 ≤ natToF32 n := roundF32_nonneg _

theorem natToF32_zero : natToF32 0 = 0 := by
  rw [natToF32]
  norm_num [roundF32]

theorem natToF32_billion : natToF32 1000000000 = 1000000000 := by
  rw [natToF32, roundF32_eval ((1000000000 : ℕ) : ℚ) 1000000000 1 29 15625000
    (by norm_num) (by norm_num) (by norm_num) (by decide) (by decide)]
  norm_num

theorem natToF32_999999999 : natToF32 999999999 = 1000000000 := by
  rw [natToF32, roundF32_eval ((999999999 : ℕ) : ℚ) 999999999 1 29 15625000
    (by norm_num) (by norm_num) (by norm_num) (by decide) (by decide)]
  norm_num

theorem natToF32_2billion : natToF32 2000000000 = 2000000000 := by
  rw [natToF32, roundF32_eval ((2000000000 : ℕ) : ℚ) 2000000000 1 30 15625000
    (by norm_num) (by norm_num) (by norm_num) (by decide) (by decide)]
  norm_num

theorem roundF32_one : roundF32 1 = 1 := by
  rw [roundF32_eval 1 1 1 0 8388608 (by norm_num) (by norm_num) (by norm_num)
    (by decide) (by decide)]
  norm_num

theorem roundF32_two : roundF32 2 = 2 := by
  rw [roundF32_eval 2 2 1 1 8388608 (by norm_num) (by norm_num) (by norm_num)
    (by decide) (by decide)]
  norm_num

/-- On non-negative in-range `i32` inputs no wrapping occurs and
`fxp230_to_f32` is the clean two-step formula. -/
theorem fxp230_spec (v : ℤ) (h0 : 0 ≤ v) (h1 : v < 2 ^ 31) :
    fxp230_to_f32 v
      = f32Div (natToF32 (v.toNat * 1000000000 / 2 ^ 30)) (natToF32 1000000000) := by
  have h1l : v < 2147483648 := by
    norm_num at h1
    exact h1
  rw [fxp230_to_f32]
  congr 3
  have hv : v % (2 ^ 64 : ℤ) = v := Int.emod_eq_of_lt h0 (by norm_num; omega)
  rw [hv]
  have hlt : v.toNat * 1000000000 < 2 ^ 64 := by
    have hvn : v.toNat < 2147483648 := by omega
    norm_num
    omega
  rw [Nat.mod_eq_of_lt hlt]

theorem fxp230_zero : fxp230_to_f32 0 = 0 := by
  rw [fxp230_spec 0 le_rfl (by norm_num)]
  norm_num [natToF32_zero, f32Div, roundF32]

theorem fxp230_one : fxp230_to_f32 1 = 0 := by
  rw [fxp230_spec 1 (by norm_num) (by norm_num)]
  norm_num [natToF32_zero, f32Div, roundF32]

theorem fxp230_neg_one_pos : 0 < fxp230_to_f32 (-1) := by
  rw [fxp230_to_f32]
  have harg : ((-1 : ℤ) % (2 ^ 64 : ℤ)).toNat * 1000000000 % 2 ^ 64 / 2 ^ 30
      = 17179869183 := by decide
  rw [harg, natToF32_billion, f32Div, natToF32]
  apply roundF32_pos
  apply div_pos
  · apply roundF32_pos
    norm_num
  · norm_num

/-- C3: `fxp230_to_f32` follows the two-step integer-then-float path
(`value * 10 ^ 9 / 2 ^ 30` truncated in 64-bit integer arithmetic, then
divided by `10 ^ 9` in floating point) for all non-negative in-range
inputs, and `fxp230_to_f32 0 = 0`, `fxp230_to_f32 1 = 0`, and
`fxp230_to_f32 1073741823` is within `f32::EPSILON = 2 ^ (-23)` of
`0.999999999`. -/
theorem C3_decode2dot30_two_step_path :
    (∀ v : ℤ, 0 ≤ v → v < 2 ^ 31 →
        fxp230_to_f32 v
          = f32Div (natToF32 (v.toNat * 1000000000 / 2 ^ 30)) (natToF32 1000000000))
      ∧ fxp230_to_f32 0 = 0
      ∧ fxp230_to_f32 1 = 0
      ∧ |fxp230_to_f32 1073741823 - 999999999 / 1000000000| ≤ 1 / 2 ^ 23 := by
  refine ⟨fxp230_spec, fxp230_zero, fxp230_one, ?_⟩
  rw [fxp230_spec 1073741823 (by norm_num) (by norm_num)]
  have harg : (1073741823 : ℤ).toNat * 1000000000 / 2 ^ 30 = 999999999 := by decide
  rw [harg, natToF32_999999999, natToF32_billion, f32Div,
    show (1000000000 : ℚ) / 1000000000 = 1 by norm_num, roundF32_one,
    show (1 : ℚ) - 999999999 / 1000000000 = 1 / 1000000000 by norm_num,
    abs_of_nonneg (by norm_num : (0 : ℚ) ≤ 1 / 1000000000)]
  norm_num

/-- Witness for C3, instantiating the universally quantified conjunct at
the source test vector 740329. -/
theorem C3_decode2dot30_two_step_path_witness :
    fxp230_to_f32 740329
      = f32Div (natToF32 ((740329 : ℤ).toNat * 1000000000 / 2 ^ 30))
          (natToF32 1000000000) :=
  C3_decode2dot30_two_step_path.1 740329 (by norm_num) (by norm_num)

/-- C4 counterexample: the pair of `i32` inputs `(-1, 0)` violates
monotonicity, because `-1 as u64` sign-extends to `2 ^ 64 - 1` and the
wrapped product makes `fxp230_to_f32 (-1)` a large positive value while
`fxp230_to_f32 0 = 0`. -/
theorem C4_decode2dot30_monotonic_counterexample :
    (-2147483648 : ℤ) ≤ -1 ∧ (-1 : ℤ) ≤ 0
      ∧ ¬ fxp230_to_f32 (-1) ≤ fxp230_to_f32 0 := by
  refine ⟨by norm_num, by norm_num, ?_⟩
  rw [fxp230_zero]
  exact not_le.mpr fxp230_neg_one_pos

/-- C4 (amended): `fxp230_to_f32` is monotone non-decreasing on
non-negative `i32` inputs. -/
theorem C4_decode2dot30_monotonic_amended (a b : ℤ) (h0 : 0 ≤ a) (hab : a ≤ b)
    (hb : b < 2 ^ 31) : fxp230_to_f32 a ≤ fxp230_to_f32 b := by
  rw [fxp230_spec a h0 (lt_of_le_of_lt hab hb), fxp230_spec b (le_trans h0 hab) hb,
    natToF32_billion, f32Div, f32Div]
  apply roundF32_mono
  · exact div_nonneg (natToF32_nonneg _) (by norm_num)
  · have hmono : natToF32 (a.toNat * 1000000000 / 2 ^ 30)
        ≤ natToF32 (b.toNat * 1000000000 / 2 ^ 30) := by
      rw [natToF32, natToF32]
      apply roundF32_mono _ _ (by positivity)
      have hn : a.toNat * 1000000000 / 2 ^ 30 ≤ b.toNat * 1000000000 / 2 ^ 30 :=
        Nat.div_le_div_right (Nat.mul_le_mul_right 1000000000 (Int.toNat_le_toNat hab))
      exact_mod_cast hn
    gcongr

/-- Witness for C4 (amended) at the concrete pair `(5, 20)`. -/
theorem C4_decode2dot30_monotonic_amended_witness :
    fxp230_to_f32 5 ≤ fxp230_to_f32 20 :=
  C4_decode2dot30_monotonic_amended 5 20 (by norm_num) (by norm_num) (by norm_num)

/-- C7: `fxp_8dot8_to_f32` divides the raw value by `10 ^ 9` directly
(no intermediate integer scaling), `fxp_8dot8_to_f32 2000000000 = 2`
exactly, and the map is linear under exact doubling. -/
theorem C7_decode8dot8_gamma_direct_division :
    (∀ n : ℕ, fxp_8dot8_to_f32 n = roundF32 (natToF32 n / 1000000000))
      ∧ fxp_8dot8_to_f32 2000000000 = 2
      ∧ ∀ n : ℕ, n < 2 ^ 31 → fxp_8dot8_to_f32 (2 * n) = 2 * fxp_8dot8_to_f32 n := by
  refine ⟨fun n => rfl, ?_, ?_⟩
  · rw [fxp_8dot8_to_f32, natToF32_2billion, f32Div,
      show (2000000000 : ℚ) / 1000000000 = 2 by norm_num, roundF32_two]
  · intro n hn
    rw [fxp_8dot8_to_f32, fxp_8dot8_to_f32, f32Div, f32Div]
    have h2n : natToF32 (2 * n) = 2 * natToF32 n := by
      rw [natToF32, natToF32, show (((2 * n : ℕ)) : ℚ) = 2 * (n : ℚ) by push_cast; ring]
      exact roundF32_double (n : ℚ) (by positivity)
    rw [h2n, show (2 * natToF32 n) / 1000000000 = 2 * (natToF32 n / 1000000000) by ring]
    exact roundF32_double _ (div_nonneg (natToF32_nonneg n) (by norm_num))

/-- Witness for C7, doubling from `10 ^ 9` to `2 * 10 ^ 9`. -/
theorem C7_decode8dot8_gamma_direct_division_witness :
    fxp_8dot8_to_f32 (2 * 1000000000) = 2 * fxp_8dot8_to_f32 1000000000 :=
  C7_decode8dot8_gamma_direct_division.2.2 1000000000 (by norm_num)

/-! ## lib.rs: monitor identity and interface-name parsing

Source (lib.rs 27-31, 144-168, 213-253).  Strings are modelled as
`List Char`.  The regex

  ^\\\\\?\\DISPLAY\#(?P<d>[A-Z0-9]+)\#(?P<m>[A-Za-z0-9&]+)\#\x7b.*?\x7d$

is matched deterministically: because the two capture classes exclude
`#`, a successful match must take each capture to be the maximal run of
class characters, so `takeWhile`/`dropWhile` computes exactly the regex
captures; `.` does not match a newline, and the lazy `.*?` followed by
the anchored closing brace means: the final character is the closing
brace and no character before it is a newline.
-/

namespace LibRs

/-- Embedding of `struct Monitor` from lib.rs: the registry-correlation
identity `(driver_id, id)`. -/
structure Monitor where
  driver_id : List Char
  id : List Char
deriving DecidableEq, Repr

/-- Embedding of `RegistryError` from lib.rs (the three wrapped
registry-crate error kinds). -/
inductive RegistryError where
  | Key
  | Value
  | KeyIter
deriving DecidableEq, Repr

/-- Embedding of `MonitorError` from lib.rs.  `WinError` payloads are
modelled as their `u32` code. -/
inductive MonitorError where
  | ListDisplayDrivers (source : RegistryError)
  | ListMonitorsForDriver (driver_id : List Char) (source : RegistryError)
  | GetEdid (monitor : Monitor) (source : RegistryError)
  | ListIntersecting (window : ℕ) (source : ℕ)
  | InvalidInterface (name : List Char)
  | GetParams (monitor : Monitor) (source : RegistryError)
deriving DecidableEq, Repr

/-- The opening brace character, written by code point. -/
def lbrace : Char := '\x7b'

/-- The closing brace character, written by code point. -/
def rbrace : Char := '\x7d'

/-- Character class `[A-Z0-9]` of the `DRIVER_ID` capture. -/
def isDriverChar (c : Char) : Bool := c.isUpper || c.isDigit

/-- Character class `[A-Za-z0-9&]` of the `MONITOR_ID` capture. -/
def isMonitorChar (c : Char) : Bool := c.isUpper || c.isLower || c.isDigit || c == '&'

/-- The literal head of the interface-name grammar. -/
def ifaceHead : List Char := "\\\\?\\DISPLAY#".data

/-- Strip an expected literal head from a character list. -/
def dropHead : List Char → List Char → Option (List Char)
  | [], s => some s
  | _ :: _, [] => none
  | p :: ps, c :: cs => if c = p then dropHead ps cs else none

/-- Validate the regex tail `.*?\x7d$` (after the opening brace): the
final character must be the closing brace and every character before it
must not be a newline. -/
def guidTail : List Char → Bool
  | [] => false
  | c :: rest => if rest = [] then c == rbrace else c != '\n' && guidTail rest


/-- Step 4 of the parse: require `#`, the opening brace, and a valid
brace tail; on success return the two captures.  (A too-short remainder
is a failed match whether or not the monitor capture was empty.) -/
def parseAfterMonitor : List Char → List Char → List Char → Option (List Char × List Char)
  | d, m, c1 :: c2 :: rest4 =>
    if m = [] then none
    else if c1 == '#' && c2 == lbrace && guidTail rest4 then some (d, m) else none
  | _, _, _ => none

/-- Step 3 of the parse: the `MONITOR_ID` capture is the maximal run of
`[A-Za-z0-9&]`. -/
def parseMonitorPart (d rest2 : List Char) : Option (List Char × List Char) :=
  parseAfterMonitor d (rest2.takeWhile isMonitorChar) (rest2.dropWhile isMonitorChar)

/-- Step 2 of the parse: the driver capture must be nonempty (`+`) and be
followed by `#`. -/
def parseAfterDriver : List Char → List Char → Option (List Char × List Char)
  | d, c :: rest2 =>
    if d = [] then none
    else if c == '#' then parseMonitorPart d rest2 else none
  | _, [] => none

/-- Step 1 of the parse: the `DRIVER_ID` capture is the maximal run of
`[A-Z0-9]`. -/
def parseAfterHead (rest : List Char) : Option (List Char × List Char) :=
  parseAfterDriver (rest.takeWhile isDriverChar) (rest.dropWhile isDriverChar)

/-- The full match of the interface-name regex, returning the two
captures. -/
def parseIface (name : List Char) : Option (List Char × List Char) :=
  (dropHead ifaceHead name).bind parseAfterHead

/-- Embedding of `Monitor::from_interface_name` (lib.rs 144-168). -/
def Monitor.from_interface_name (name : List Char) : Except MonitorError Monitor :=
  match parseIface name with
  | some (d, m) => .ok ⟨d, m⟩
  | none => .error (.InvalidInterface name)

/-- The documented interface-name grammar (spec 4.1) with an arbitrary
brace-enclosed tail, as claim C5 states it. -/
def ValidInterface (s : List Char) : Prop :=
  ∃ d m g : List Char,
    s = ifaceHead ++ (d ++ ('#' :: (m ++ ('#' :: (lbrace :: (g ++ [rbrace]))))))
      ∧ d ≠ [] ∧ (∀ c ∈ d, isDriverChar c) ∧ m ≠ [] ∧ (∀ c ∈ m, isMonitorChar c)

theorem dropHead_append (p s : List Char) : dropHead p (p ++ s) = some s := by
  induction p with
  | nil => rfl
  | cons c p ih => simp [dropHead, ih]

theorem dropHead_some (p s r : List Char) (h : dropHead p s = some r) : s = p ++ r := by
  induction p generalizing s with
  | nil =>
    simp only [dropHead, Option.some_inj] at h
    simp [h]
  | cons c p ih =>
    match s with
    | [] => simp [dropHead] at h
    | a :: s =>
      simp only [dropHead] at h
      by_cases hac : a = c
      · rw [if_pos hac] at h
        rw [hac, List.cons_append, ih s h]
      · rw [if_neg hac] at h
        exact absurd h (by simp)

theorem takeWhile_app (f : Char → Bool) (l : List Char) (x : Char) (r : List Char)
    (hl : ∀ c ∈ l, f c = true) (hx : f x = false) :
    (l ++ x :: r).takeWhile f = l ∧ (l ++ x :: r).dropWhile f = x :: r := by
  induction l with
  | nil => simp [List.takeWhile_cons, List.dropWhile_cons, hx]
  | cons a l ih =>
    have ha : f a = true := hl a (by simp)
    have hl2 : ∀ c ∈ l, f c = true := fun c hc => hl c (by simp [hc])
    obtain ⟨h1, h2⟩ := ih hl2
    simp [List.takeWhile_cons, List.dropWhile_cons, ha, h1, h2]

theorem guidTail_complete (g : List Char) (hg : '\n' ∉ g) : guidTail (g ++ [rbrace]) = true := by
  induction g with
  | nil => simp [guidTail]
  | cons c g ih =>
    have hc : c ≠ '\n' := by
      intro hcc
      exact hg (by simp [hcc])
    have hg2 : '\n' ∉ g := fun hm => hg (by simp [hm])
    rw [List.cons_append, guidTail, if_neg (by simp)]
    simp [hc, ih hg2]

theorem guidTail_sound (l : List Char) (h : guidTail l = true) :
    ∃ g, l = g ++ [rbrace] ∧ '\n' ∉ g := by
  induction l with
  | nil => simp [guidTail] at h
  | cons c rest ih =>
    rw [guidTail] at h
    by_cases hr : rest = []
    · rw [if_pos hr] at h
      refine ⟨[], ?_, by simp⟩
      simp [hr, beq_iff_eq.mp h]
    · rw [if_neg hr] at h
      simp only [Bool.and_eq_true, bne_iff_ne, ne_eq] at h
      obtain ⟨g, hg1, hg2⟩ := ih h.2
      exact ⟨c :: g, by simp [hg1], by simp [hg2, Ne.symm h.1]⟩

theorem parseIface_complete (d m g : List Char) (hd : d ≠ [])
    (hdc : ∀ c ∈ d, isDriverChar c) (hm : m ≠ []) (hmc : ∀ c ∈ m, isMonitorChar c)
    (hg : '\n' ∉ g) :
    parseIface (ifaceHead ++ (d ++ ('#' :: (m ++ ('#' :: (lbrace :: (g ++ [rbrace])))))))
      = some (d, m) := by
  obtain ⟨ht1, hd1⟩ := takeWhile_app isDriverChar d '#'
    (m ++ ('#' :: (lbrace :: (g ++ [rbrace])))) hdc (by decide)
  obtain ⟨ht2, hd2⟩ := takeWhile_app isMonitorChar m '#'
    (lbrace :: (g ++ [rbrace])) hmc (by decide)
  rw [parseIface, dropHead_append]
  simp only [Option.some_bind, parseAfterHead]
  rw [ht1, hd1]
  simp only [parseAfterDriver, if_neg hd]
  rw [if_pos (by decide : (('#' : Char) == '#') = true)]
  simp only [parseMonitorPart]
  rw [ht2, hd2]
  simp only [parseAfterMonitor, if_neg hm]
  rw [if_pos]
  simp [guidTail_complete g hg]

theorem parseIface_sound (name d m : List Char) (h : parseIface name = some (d, m)) :
    ValidInterface name := by
  rw [parseIface] at h
  cases hdrop : dropHead ifaceHead name with
  | none => rw [hdrop] at h; simp at h
  | some rest =>
    rw [hdrop] at h
    simp only [Option.some_bind, parseAfterHead] at h
    have hname : name = ifaceHead ++ rest := dropHead_some _ _ _ hdrop
    cases hr1 : rest.dropWhile isDriverChar with
    | nil => rw [hr1] at h; simp [parseAfterDriver] at h
    | cons c r2 =>
      rw [hr1] at h
      simp only [parseAfterDriver] at h
      by_cases hde : rest.takeWhile isDriverChar = []
      · rw [if_pos hde] at h; simp at h
      · rw [if_neg hde] at h
        by_cases hc : (c == '#') = true
        · rw [if_pos hc] at h
          have hcq : c = '#' := beq_iff_eq.mp hc
          simp only [parseMonitorPart] at h
          cases hr3 : r2.dropWhile isMonitorChar with
          | nil => rw [hr3] at h; simp [parseAfterMonitor] at h
          | cons c1 r3a =>
            cases r3a with
            | nil => rw [hr3] at h; simp [parseAfterMonitor] at h
            | cons c2 r4 =>
              rw [hr3] at h
              simp only [parseAfterMonitor] at h
              by_cases hme : r2.takeWhile isMonitorChar = []
              · rw [if_pos hme] at h; simp at h
              · rw [if_neg hme] at h
                by_cases hcond : (c1 == '#' && c2 == lbrace && guidTail r4) = true
                · rw [if_pos hcond] at h
                  have hpair : rest.takeWhile isDriverChar = d
                      ∧ r2.takeWhile isMonitorChar = m := by
                    have hinj := Option.some_inj.mp h
                    exact ⟨congrArg Prod.fst hinj, congrArg Prod.snd hinj⟩
                  simp only [Bool.and_eq_true, beq_iff_eq] at hcond
                  obtain ⟨⟨hc1, hc2⟩, htail⟩ := hcond
                  obtain ⟨g, hg1, hg2⟩ := guidTail_sound r4 htail
                  refine ⟨d, m, g, ?_, ?_, ?_, ?_, ?_⟩
                  · have hs1 : rest.takeWhile isDriverChar ++ rest.dropWhile isDriverChar
                        = rest := List.takeWhile_append_dropWhile isDriverChar rest
                    have hs2 : r2.takeWhile isMonitorChar ++ r2.dropWhile isMonitorChar
                        = r2 := List.takeWhile_append_dropWhile isMonitorChar r2
                    rw [hname]
                    congr 1
                    rw [← hs1, hr1, hpair.1, hcq]
                    congr 2
                    rw [← hs2, hr3, hpair.2, hc1, hc2, hg1]
                  · rw [← hpair.1]; exact hde
                  · intro ch hch
                    rw [← hpair.1] at hch
                    exact List.mem_takeWhile_imp hch
                  · rw [← hpair.2]; exact hme
                  · intro ch hch
                    rw [← hpair.2] at hch
                    exact List.mem_takeWhile_imp hch
                · rw [if_neg hcond] at h; simp at h
        · rw [if_neg hc] at h; simp at h

theorem from_iface_cases (name : List Char) :
    (∃ mon, Monitor.from_interface_name name = .ok mon)
      ∨ Monitor.from_interface_name name = .error (.InvalidInterface name) := by
  rw [Monitor.from_interface_name]
  cases parseIface name with
  | none => exact Or.inr rfl
  | some pr => exact Or.inl ⟨⟨pr.1, pr.2⟩, rfl⟩

theorem from_iface_ok_valid (name : List Char) (mon : Monitor)
    (h : Monitor.from_interface_name name = .ok mon) : ValidInterface name := by
  rw [Monitor.from_interface_name] at h
  cases hp : parseIface name with
  | none => rw [hp] at h; simp at h
  | some pr => exact parseIface_sound name pr.1 pr.2 hp

end LibRs

/-- Concrete interface-name string of the form claimed by C5 whose GUID
brace content is a newline character. -/
def c5cexStr : List Char :=
  LibRs.ifaceHead
    ++ (['A'] ++ ('#' :: (['B'] ++ ('#' :: (LibRs.lbrace :: (['\n'] ++ [LibRs.rbrace]))))))

/-- C5 counterexample: a string of the claimed form (driver id `A`
matching `[A-Z0-9]+`, monitor id `B` matching `[A-Za-z0-9&]+`, GUID
braces enclosing a newline) on which `Monitor::from_interface_name`
fails instead of returning the captures: the regex metacharacter `.`
does not match a newline. -/
theorem C5_parse_interface_counterexample :
    LibRs.isDriverChar 'A' = true ∧ LibRs.isMonitorChar 'B' = true
      ∧ LibRs.Monitor.from_interface_name c5cexStr
          = .error (.InvalidInterface c5cexStr) := by
  refine ⟨by decide, by decide, rfl⟩

/-- C5 (amended): for every string of the documented grammar whose GUID
brace content contains no newline, `Monitor::from_interface_name`
succeeds and returns exactly the driver-id and monitor-id substrings. -/
theorem C5_parse_interface_amended (d m g : List Char) (hd : d ≠ [])
    (hdc : ∀ c ∈ d, LibRs.isDriverChar c) (hm : m ≠ [])
    (hmc : ∀ c ∈ m, LibRs.isMonitorChar c) (hg : '\n' ∉ g) :
    LibRs.Monitor.from_interface_name
        (LibRs.ifaceHead
          ++ (d ++ ('#' :: (m ++ ('#' :: (LibRs.lbrace :: (g ++ [LibRs.rbrace])))))))
      = .ok ⟨d, m⟩ := by
  rw [LibRs.Monitor.from_interface_name, LibRs.parseIface_complete d m g hd hdc hm hmc hg]

/-- Driver id of the specification section-8 scenario. -/
def c5wDriver : List Char := "MEI96A2".data

/-- Monitor id of the specification section-8 scenario. -/
def c5wMonitor : List Char := "4&289d1234&0&UID0".data

/-- GUID body of the specification section-8 scenario. -/
def c5wGuid : List Char := "e6f07b5f-ee97-4a90-b076-33f57bf4eaa7".data

/-- Witness for C5 (amended) at the specification section-8 scenario. -/
theorem C5_parse_interface_amended_witness :
    LibRs.Monitor.from_interface_name
        (LibRs.ifaceHead
          ++ (c5wDriver
            ++ ('#' :: (c5wMonitor
              ++ ('#' :: (LibRs.lbrace :: (c5wGuid ++ [LibRs.rbrace])))))))
      = .ok ⟨c5wDriver, c5wMonitor⟩ :=
  C5_parse_interface_amended c5wDriver c5wMonitor c5wGuid (by decide) (by decide)
    (by decide) (by decide) (by decide)

/-- C6: every input string that deviates from the interface-name grammar
is rejected with `InvalidInterface` carrying the offending raw string;
no partially parsed identity is ever returned. -/
theorem C6_malformed_interface_fails (s : List Char) (h : ¬ LibRs.ValidInterface s) :
    LibRs.Monitor.from_interface_name s = .error (.InvalidInterface s) := by
  rcases LibRs.from_iface_cases s with ⟨mon, hok⟩ | herr
  · exact absurd (LibRs.from_iface_ok_valid s mon hok) h
  · exact herr

/-- Concrete malformed input for the C6 witness. -/
def c6bad : List Char := ['X']

/-- Witness for C6 at the single-character input `X`. -/
theorem C6_malformed_interface_fails_witness :
    LibRs.Monitor.from_interface_name c6bad = .error (.InvalidInterface c6bad) := by
  apply C6_malformed_interface_fails
  intro hval
  obtain ⟨d, m, g, heq, hd, -, -, -⟩ := hval
  have hlen := congrArg List.length heq
  have h12 : LibRs.ifaceHead.length = 12 := by decide
  simp only [c6bad, List.length_append, List.length_cons, List.length_singleton, h12] at hlen
  omega

/-! ## Shared helpers: wide-string decoding and result collection -/

/-- Unicode replacement character used by lossy UTF-16 decoding. -/
def repChar : Char := Char.ofNat 0xFFFD

/-- Lossy UTF-16 decoding (`String::from_utf16_lossy`): valid surrogate
pairs combine into one scalar, unpaired surrogates become the
replacement character. -/
def utf16Lossy : List ℕ → List Char
  | [] => []
  | [u] => if u < 0xD800 ∨ 0xE000 ≤ u then [Char.ofNat u] else [repChar]
  | u :: v :: rest =>
    if u < 0xD800 ∨ 0xE000 ≤ u then Char.ofNat u :: utf16Lossy (v :: rest)
    else if u < 0xDC00 then
      if 0xDC00 ≤ v ∧ v < 0xE000 then
        Char.ofNat (0x10000 + (u - 0xD800) * 0x400 + (v - 0xDC00)) :: utf16Lossy rest
      else repChar :: utf16Lossy (v :: rest)
    else repChar :: utf16Lossy (v :: rest)

/-- Embedding of `wchars_to_string` (lib.rs 255-261): take code units up
to (not including) the first zero — the whole buffer when no zero exists
— then decode UTF-16 lossily.  The result stays a `List Char`. -/
def wchars_to_string (wchars : List ℕ) : List Char :=
  utf16Lossy (wchars.takeWhile (fun u => u != 0))

/-- Collecting a vector of results
(`Vec<Result<T, E>>::into_iter().collect::<Result<Vec<T>, E>>()`): the
first error fails the whole collection. -/
def collectExcept {ε α : Type} : List (Except ε α) → Except ε (List α)
  | [] => .ok []
  | .error e :: _ => .error e
  | .ok a :: rest => (collectExcept rest).map (fun l => a :: l)

theorem collectExcept_error_mem {ε α : Type} (l : List (Except ε α)) (e : ε)
    (h : collectExcept l = .error e) : Except.error e ∈ l := by
  induction l with
  | nil => simp [collectExcept] at h
  | cons x rest ih =>
    match x with
    | .error e2 =>
      simp only [collectExcept, Except.error.injEq] at h
      simp [h]
    | .ok a =>
      simp only [collectExcept] at h
      cases hr : collectExcept rest with
      | ok l2 => rw [hr] at h; simp [Except.map] at h
      | error e2 =>
        rw [hr] at h
        simp only [Except.map, Except.error.injEq] at h
        subst h
        exact List.mem_cons_of_mem _ (ih hr)

theorem collectExcept_error_of_mem {ε α : Type} (l : List (Except ε α)) (e₀ : ε)
    (hex : Except.error e₀ ∈ l) (hall : ∀ e, Except.error e ∈ l → e = e₀) :
    collectExcept l = .error e₀ := by
  induction l with
  | nil => simp at hex
  | cons x rest ih =>
    match x with
    | .error e2 =>
      have : e2 = e₀ := hall e2 (by simp)
      simp [collectExcept, this]
    | .ok a =>
      have hex2 : Except.error e₀ ∈ rest := by
        rcases List.mem_cons.mp hex with hh | ht
        · exact absurd hh (by simp)
        · exact ht
      have hall2 : ∀ e, Except.error e ∈ rest → e = e₀ := fun e he =>
        hall e (List.mem_cons_of_mem _ he)
      simp [collectExcept, ih hex2 hall2, Except.map]

/-! ## monitor.rs: virtual monitors, list() and primary()

Source (monitor.rs 17-133).  `HMONITOR` handles are opaque; we model
them as `ℕ`.  The host behaviour behind `EnumDisplayMonitors` /
`GetMonitorInfoW` is a parameter (`MonitorRs.Host`).
-/

namespace MonitorRs

/-- Modelled from the spec (section 3): `Rect` with the four `i32`
coordinates; the struct's own definition is not among the provided
sources (monitor.rs only converts to it via `Rect::from`). -/
structure Rect where
  left : ℤ
  top : ℤ
  right : ℤ
  bottom : ℤ
deriving DecidableEq, Repr

/-- The `MONITORINFOEXW` record as filled by `GetMonitorInfoW`. -/
structure RawMonitorInfo where
  szDevice : List ℕ
  rcMonitor : Rect
  rcWork : Rect
  dwFlags : ℕ
deriving DecidableEq, Repr

/-- The GDI host: monitor handles enumerated by `EnumDisplayMonitors`
and the info record `GetMonitorInfoW` fills for each handle. -/
structure Host where
  handles : List ℕ
  info : ℕ → RawMonitorInfo

/-- Flag `MONITORINFOF_PRIMARY`. -/
def MONITORINFOF_PRIMARY : ℕ := 1

/-- Embedding of `struct Monitor` from monitor.rs. -/
structure Monitor where
  h : ℕ
  name : List Char
  rect : Rect
  work_area : Rect
  is_primary : Bool
deriving DecidableEq, Repr

/-- Embedding of `MonitorError` from monitor.rs. -/
inductive MonitorError where
  | GotPlaceholder
  | NoPrimary
deriving DecidableEq, Repr

/-- The reserved placeholder device name. -/
def winDisc : List Char := "WinDisc".data

/-- Embedding of `Monitor::get` (monitor.rs 98-124). -/
def Monitor.get (host : Host) (h : ℕ) : Except MonitorError Monitor :=
  let info := host.info h
  let name := wchars_to_string info.szDevice
  if name = winDisc then .error .GotPlaceholder
  else
    .ok { h := h, name := name, rect := info.rcMonitor, work_area := info.rcWork,
          is_primary := decide (info.dwFlags &&& MONITORINFOF_PRIMARY ≠ 0) }

/-- Embedding of `Monitor::list` (monitor.rs 57-83): the callback pushes
`Monitor::get h` for every enumerated handle and the vector of results
is collected, the first error failing the whole call. -/
def Monitor.list (host : Host) : Except MonitorError (List Monitor) :=
  collectExcept (host.handles.map (Monitor.get host))

/-- Embedding of `Monitor::primary` (monitor.rs 42-47). -/
def Monitor.primary (host : Host) : Except MonitorError Monitor :=
  match Monitor.list host with
  | .error e => .error e
  | .ok l =>
    match l.find? (fun m => m.is_primary) with
    | some m => .ok m
    | none => .error .NoPrimary

theorem get_error_eq (host : Host) (h : ℕ) (e : MonitorError)
    (he : Monitor.get host h = .error e) :
    e = .GotPlaceholder ∧ wchars_to_string (host.info h).szDevice = winDisc := by
  rw [Monitor.get] at he
  by_cases hn : wchars_to_string (host.info h).szDevice = winDisc
  · simp only [hn, if_pos rfl] at he
    exact ⟨by simpa using he.symm, hn⟩
  · rw [if_neg hn] at he
    exact absurd he (by simp)

theorem get_error_of_windisc (host : Host) (h : ℕ)
    (hn : wchars_to_string (host.info h).szDevice = winDisc) :
    Monitor.get host h = .error .GotPlaceholder := by
  rw [Monitor.get]
  simp [hn]

theorem list_error_eq (host : Host) (e : MonitorError)
    (h : Monitor.list host = .error e) : e = .GotPlaceholder := by
  have hmem := collectExcept_error_mem _ _ h
  rw [List.mem_map] at hmem
  obtain ⟨x, -, hx⟩ := hmem
  exact (get_error_eq host x e hx).1

end MonitorRs

/-- Host for the C1 counterexample: handle 0 is a normal primary monitor
named `A`, handle 1 reports the placeholder name `WinDisc`. -/
def c1host : MonitorRs.Host :=
  { handles := [0, 1],
    info := fun h =>
      if h = 0 then
        { szDevice := [65, 0], rcMonitor := ⟨0, 0, 100, 100⟩,
          rcWork := ⟨0, 0, 100, 90⟩, dwFlags := 1 }
      else
        { szDevice := [87, 105, 110, 68, 105, 115, 99, 0],
          rcMonitor := ⟨100, 0, 200, 100⟩, rcWork := ⟨100, 0, 200, 90⟩,
          dwFlags := 0 } }

/-- C1 counterexample: in an enumeration pass where one virtual monitor
reports the placeholder name `WinDisc` (and another does not),
`Monitor::list` does not exclude that record and return `Ok` — the whole
call fails with `GotPlaceholder`. -/
theorem C1_placeholder_counterexample :
    wchars_to_string (c1host.info 1).szDevice = MonitorRs.winDisc
      ∧ wchars_to_string (c1host.info 0).szDevice ≠ MonitorRs.winDisc
      ∧ MonitorRs.Monitor.list c1host = .error .GotPlaceholder :=
  ⟨rfl, by decide, rfl⟩

/-- C1 (amended): whenever some enumerated virtual monitor's info record
reports the placeholder device name `WinDisc`, the whole
`Monitor::list` call fails with `GotPlaceholder` (the only error the
enumeration can produce, so it is the first error collected). -/
theorem C1_placeholder_fatal (host : MonitorRs.Host)
    (h : ∃ hm ∈ host.handles,
        wchars_to_string (host.info hm).szDevice = MonitorRs.winDisc) :
    MonitorRs.Monitor.list host = .error .GotPlaceholder := by
  obtain ⟨hm, hmem, hname⟩ := h
  apply collectExcept_error_of_mem
  · rw [List.mem_map]
    exact ⟨hm, hmem, MonitorRs.get_error_of_windisc host hm hname⟩
  · intro e he
    rw [List.mem_map] at he
    obtain ⟨x, -, hx⟩ := he
    exact (MonitorRs.get_error_eq host x e hx).1

/-- Witness for C1 (amended) at the concrete two-monitor host. -/
theorem C1_placeholder_fatal_witness :
    MonitorRs.Monitor.list c1host = .error .GotPlaceholder :=
  C1_placeholder_fatal c1host ⟨1, by decide, rfl⟩

/-- C8: `Monitor::primary` fails with `NoPrimary` exactly when
`Monitor::list` succeeds with no primary monitor in it; when some listed
monitor is primary, `primary` returns a primary monitor; and when
`list` itself fails, `primary` propagates that error, which is never
`NoPrimary`. -/
theorem C8_primary_no_primary_iff (host : MonitorRs.Host) :
    (MonitorRs.Monitor.primary host = .error .NoPrimary
        ↔ ∃ l, MonitorRs.Monitor.list host = .ok l ∧ ∀ m ∈ l, m.is_primary = false)
      ∧ (∀ l, MonitorRs.Monitor.list host = .ok l →
          (∃ m ∈ l, m.is_primary = true) →
          ∃ m, MonitorRs.Monitor.primary host = .ok m ∧ m.is_primary = true)
      ∧ (∀ e, MonitorRs.Monitor.list host = .error e →
          MonitorRs.Monitor.primary host = .error e ∧ e ≠ .NoPrimary) := by
  refine ⟨⟨?_, ?_⟩, ?_, ?_⟩
  · intro hpr
    rw [MonitorRs.Monitor.primary] at hpr
    cases hl : MonitorRs.Monitor.list host with
    | error e =>
      rw [hl] at hpr
      simp only [Except.error.injEq] at hpr
      have hg := MonitorRs.list_error_eq host e hl
      rw [hg] at hpr
      exact absurd hpr (by simp)
    | ok l =>
      rw [hl] at hpr
      have hpr2 : (match l.find? (fun m => m.is_primary) with
          | some m => Except.ok m
          | none => Except.error MonitorRs.MonitorError.NoPrimary)
          = Except.error MonitorRs.MonitorError.NoPrimary := hpr
      cases hf : l.find? (fun m => m.is_primary) with
      | some m => rw [hf] at hpr2; exact absurd hpr2 (by simp)
      | none =>
        refine ⟨l, rfl, ?_⟩
        intro m hm
        have := List.find?_eq_none.mp hf m hm
        simpa using this
  · intro hex
    obtain ⟨l, hok, hall⟩ := hex
    rw [MonitorRs.Monitor.primary, hok]
    have hnone : l.find? (fun m => m.is_primary) = none :=
      List.find?_eq_none.mpr (fun x hx => by simp [hall x hx])
    show (match l.find? (fun m => m.is_primary) with
        | some m => Except.ok m
        | none => Except.error MonitorRs.MonitorError.NoPrimary)
        = Except.error MonitorRs.MonitorError.NoPrimary
    rw [hnone]
  · intro l hok hex
    obtain ⟨m, hmem, hp⟩ := hex
    have hsome : (l.find? (fun m => m.is_primary)).isSome :=
      List.find?_isSome.mpr ⟨m, hmem, by simp [hp]⟩
    obtain ⟨m2, hm2⟩ := Option.isSome_iff_exists.mp hsome
    refine ⟨m2, ?_, List.find?_some hm2⟩
    rw [MonitorRs.Monitor.primary, hok]
    show (match l.find? (fun m => m.is_primary) with
        | some m => Except.ok m
        | none => Except.error MonitorRs.MonitorError.NoPrimary)
        = Except.ok m2
    rw [hm2]
  · intro e herr
    have hg := MonitorRs.list_error_eq host e herr
    constructor
    · rw [MonitorRs.Monitor.primary, herr]
    · rw [hg]
      simp

/-- Host for the C8 witness: a single primary monitor named `A`. -/
def c8host : MonitorRs.Host :=
  { handles := [7],
    info := fun _ =>
      { szDevice := [65, 0], rcMonitor := ⟨0, 0, 100, 100⟩,
        rcWork := ⟨0, 0, 100, 90⟩, dwFlags := 1 } }

/-- The monitor record produced for the C8 witness host. -/
def c8mon : MonitorRs.Monitor :=
  { h := 7, name := ['A'], rect := ⟨0, 0, 100, 100⟩,
    work_area := ⟨0, 0, 100, 90⟩, is_primary := true }

/-- Witness for C8 at the single-primary host. -/
theorem C8_primary_no_primary_iff_witness :
    MonitorRs.Monitor.primary c8host = .ok c8mon ∧ c8mon.is_primary = true := by
  obtain ⟨m, hm, hp⟩ := (C8_primary_no_primary_iff c8host).2.1 [c8mon] rfl
    ⟨c8mon, List.mem_singleton.mpr rfl, rfl⟩
  have hcomp : MonitorRs.Monitor.primary c8host = .ok c8mon := rfl
  exact ⟨hcomp, rfl⟩

/-! ## physical_monitor.rs: PhysicalMonitor::list

Source (physical_monitor.rs 21-56).  `GetNumberOfPhysicalMonitorsFromHMONITOR`
either fails or reports a count; on a reported count of zero the code
builds `vec![PHYSICAL_MONITOR::default(); 0]` and then evaluates
`&mut list[0]`, which panics (index out of bounds) — modelled as `none`.
-/

namespace PhysRs

/-- The packed `PHYSICAL_MONITOR` record. -/
structure RawPhysicalMonitor where
  hPhysicalMonitor : ℕ
  szPhysicalMonitorDescription : List ℕ
deriving DecidableEq, Repr

/-- Host behaviour behind the two physical-monitor syscalls. `numberOf`
models `GetNumberOfPhysicalMonitorsFromHMONITOR` (failure or reported
count), `fillOk`/`fill` model `GetPhysicalMonitorsFromHMONITOR` (status
and the records written into the caller's buffer), `lastError` models
`GetLastError`. -/
structure Host where
  numberOf : ℕ → Except Unit ℕ
  fillOk : ℕ → ℕ → Bool
  fill : ℕ → ℕ → List RawPhysicalMonitor
  lastError : ℕ

/-- Embedding of `struct PhysicalMonitor`. -/
structure PhysicalMonitor where
  h : ℕ
  description : List Char
deriving DecidableEq, Repr

/-- Embedding of `PhysicalMonitorError`; the `WinError` payload is its
`u32` code. -/
inductive PhysicalMonitorError where
  | Listing (source : ℕ)
deriving DecidableEq, Repr

/-- Embedding of `PhysicalMonitor::from_ffi` (physical_monitor.rs 48-55). -/
def PhysicalMonitor.from_ffi (sys : RawPhysicalMonitor) : PhysicalMonitor :=
  { h := sys.hPhysicalMonitor,
    description := wchars_to_string sys.szPhysicalMonitorDescription }

/-- Embedding of `PhysicalMonitor::list` (physical_monitor.rs 29-46);
`none` models the `&mut list[0]` panic on a zero-length buffer. -/
def PhysicalMonitor.list (host : Host) (virt : MonitorRs.Monitor) :
    Option (Except PhysicalMonitorError (List PhysicalMonitor)) :=
  match host.numberOf virt.h with
  | .error _ => some (.error (.Listing host.lastError))
  | .ok len =>
    if len = 0 then none
    else if host.fillOk virt.h len then
      some (.ok ((host.fill virt.h len).map PhysicalMonitor.from_ffi))
    else some (.error (.Listing host.lastError))

/-- Embedding of `Monitor::physical_monitors` (monitor.rs 94-96), which
just delegates to `PhysicalMonitor::list`. -/
def physical_monitors (host : Host) (m : MonitorRs.Monitor) :
    Option (Except PhysicalMonitorError (List PhysicalMonitor)) :=
  PhysicalMonitor.list host m

end PhysRs

/-- C9: when the count syscall succeeds and reports zero,
`PhysicalMonitor::list` (and `Monitor::physical_monitors`) panics
(indexing element 0 of a zero-length buffer) instead of returning `Ok`
with an empty list; equivalently, a non-panicking run requires a nonzero
reported count. -/
theorem C9_zero_count_panics (host : PhysRs.Host) (virt : MonitorRs.Monitor) :
    (host.numberOf virt.h = .ok 0 →
        PhysRs.PhysicalMonitor.list host virt = none
          ∧ PhysRs.physical_monitors host virt = none)
      ∧ (PhysRs.PhysicalMonitor.list host virt ≠ none →
          ∀ n, host.numberOf virt.h = .ok n → n ≠ 0) := by
  constructor
  · intro h0
    have hnone : PhysRs.PhysicalMonitor.list host virt = none := by
      rw [PhysRs.PhysicalMonitor.list, h0]
      simp
    exact ⟨hnone, hnone⟩
  · intro hne n hn h0
    subst h0
    apply hne
    rw [PhysRs.PhysicalMonitor.list, hn]
    simp

/-- Virtual monitor used by the C9 witness. -/
def c9virt : MonitorRs.Monitor :=
  { h := 3, name := ['B'], rect := ⟨0, 0, 10, 10⟩, work_area := ⟨0, 0, 10, 10⟩,
    is_primary := false }

/-- Host used by the C9 witness: the count syscall reports zero. -/
def c9host : PhysRs.Host :=
  { numberOf := fun _ => .ok 0, fillOk := fun _ _ => true, fill := fun _ _ => [],
    lastError := 0 }

/-- Witness for C9: at a host reporting a zero count, the call panics. -/
theorem C9_zero_count_panics_witness :
    PhysRs.PhysicalMonitor.list c9host c9virt = none
      ∧ PhysRs.physical_monitors c9host c9virt = none :=
  (C9_zero_count_panics c9host c9virt).1 rfl

/-! ## lib.rs: registry-backed EDID lookup and Monitor::intersecting

Source (lib.rs 90-142, 176-210).  The registry crate is external; its
behaviour is a parameter (`LibRs.Registry`): `openOk` says whether a key
path can be opened with read access, `value` reads a named value under a
key path (an error code or typed data).
-/

namespace LibRs

/-- A registry value as the `registry` crate's `Data`: binary bytes or
any other value type. -/
inductive Data where
  | Binary (bytes : List ℕ)
  | Other
deriving DecidableEq, Repr

/-- The registry oracle. -/
structure Registry where
  openOk : List (List Char) → Bool
  value : List (List Char) → List Char → Except RegistryError Data

/-- The canonical display-enumeration registry path (`Monitor::LIST_PATH`). -/
def LIST_PATH : List Char := "SYSTEM\\CurrentControlSet\\Enum\\DISPLAY".data

/-- The `Device Parameters` sub-key name. -/
def deviceParametersKey : List Char := "Device Parameters".data

/-- The `EDID` value name. -/
def edidValueName : List Char := "EDID".data

/-- The full path of a monitor's `Device Parameters` key. -/
def paramsPath (m : Monitor) : List (List Char) :=
  [LIST_PATH, m.driver_id, m.id, deviceParametersKey]

/-- Embedding of `Monitor::driver_key` + `Monitor::params_key`
(lib.rs 193-210): three nested opens; the first failure is wrapped in
`GetParams`. -/
def Monitor.params_key (reg : Registry) (m : Monitor) :
    Except MonitorError (List (List Char)) :=
  if reg.openOk [LIST_PATH, m.driver_id] then
    if reg.openOk [LIST_PATH, m.driver_id, m.id] then
      if reg.openOk (paramsPath m) then .ok (paramsPath m)
      else .error (.GetParams m .Key)
    else .error (.GetParams m .Key)
  else .error (.GetParams m .Key)

/-- Embedding of `Monitor::edid` (lib.rs 176-191).  `none` models the
`unreachable!("EDID will always be in bytes")` panic taken when the
value read succeeds but the value is not binary. -/
def Monitor.edid (reg : Registry) (m : Monitor) :
    Option (Except MonitorError (List ℕ)) :=
  match m.params_key reg with
  | .error e => some (.error e)
  | .ok p =>
    match reg.value p edidValueName with
    | .error e => some (.error (.GetEdid m e))
    | .ok (.Binary bytes) => some (.ok bytes)
    | .ok .Other => none

/-- All three key opens on the way to `Device Parameters` succeed. -/
def opensOk (reg : Registry) (m : Monitor) : Prop :=
  reg.openOk [LIST_PATH, m.driver_id] = true
    ∧ reg.openOk [LIST_PATH, m.driver_id, m.id] = true
    ∧ reg.openOk (paramsPath m) = true

end LibRs

/-- Registry for the C2 counterexample: every key opens, and every value
read succeeds with a non-binary value. -/
def c2reg : LibRs.Registry :=
  { openOk := fun _ => true, value := fun _ _ => .ok .Other }

/-- Monitor identity for the C2 counterexample. -/
def c2mon : LibRs.Monitor := { driver_id := ['D'], id := ['M'] }

/-- C2 counterexample: when the `EDID` value read succeeds but the value
type is not binary, `Monitor::edid` panics (`unreachable!`) instead of
returning `Err(RegistryError)` — and its result type `Result<Vec<u8>>`
has no `Ok(None)` shape at all. -/
theorem C2_edid_counterexample :
    c2reg.value (LibRs.paramsPath c2mon) LibRs.edidValueName = .ok .Other
      ∧ LibRs.Monitor.edid c2reg c2mon = none :=
  ⟨rfl, rfl⟩

/-- C2 (amended): `Monitor::edid` carries no raw key-path buffer and has
no sentinel `Ok(None)` path.  A failed key open yields
`Err(GetParams)`, a failed value read yields `Err(GetEdid)`, a present
binary value yields `Ok(bytes)`, and a present non-binary value panics. -/
theorem C2_edid_amended (reg : LibRs.Registry) (m : LibRs.Monitor) :
    (¬ LibRs.opensOk reg m →
        LibRs.Monitor.edid reg m = some (.error (.GetParams m .Key)))
      ∧ (LibRs.opensOk reg m → ∀ e,
          reg.value (LibRs.paramsPath m) LibRs.edidValueName = .error e →
          LibRs.Monitor.edid reg m = some (.error (.GetEdid m e)))
      ∧ (LibRs.opensOk reg m → ∀ bytes,
          reg.value (LibRs.paramsPath m) LibRs.edidValueName = .ok (.Binary bytes) →
          LibRs.Monitor.edid reg m = some (.ok bytes))
      ∧ (LibRs.opensOk reg m →
          reg.value (LibRs.paramsPath m) LibRs.edidValueName = .ok .Other →
          LibRs.Monitor.edid reg m = none) := by
  refine ⟨?_, ?_, ?_, ?_⟩
  · intro hno
    rw [LibRs.Monitor.edid, LibRs.Monitor.params_key]
    by_cases h1 : reg.openOk [LibRs.LIST_PATH, m.driver_id] = true
    · rw [if_pos h1]
      by_cases h2 : reg.openOk [LibRs.LIST_PATH, m.driver_id, m.id] = true
      · rw [if_pos h2]
        by_cases h3 : reg.openOk (LibRs.paramsPath m) = true
        · exact absurd ⟨h1, h2, h3⟩ hno
        · rw [if_neg h3]
      · rw [if_neg h2]
    · rw [if_neg h1]
  · intro hyes e hval
    obtain ⟨h1, h2, h3⟩ := hyes
    rw [LibRs.Monitor.edid, LibRs.Monitor.params_key, if_pos h1, if_pos h2, if_pos h3]
    show (match reg.value (LibRs.paramsPath m) LibRs.edidValueName with
      | .error e => some (Except.error (LibRs.MonitorError.GetEdid m e))
      | .ok (.Binary bytes) => some (Except.ok bytes)
      | .ok .Other => none) = some (Except.error (LibRs.MonitorError.GetEdid m e))
    rw [hval]
  · intro hyes bytes hval
    obtain ⟨h1, h2, h3⟩ := hyes
    rw [LibRs.Monitor.edid, LibRs.Monitor.params_key, if_pos h1, if_pos h2, if_pos h3]
    show (match reg.value (LibRs.paramsPath m) LibRs.edidValueName with
      | .error e => some (Except.error (LibRs.MonitorError.GetEdid m e))
      | .ok (.Binary bytes) => some (Except.ok bytes)
      | .ok .Other => none) = some (Except.ok bytes)
    rw [hval]
  · intro hyes hval
    obtain ⟨h1, h2, h3⟩ := hyes
    rw [LibRs.Monitor.edid, LibRs.Monitor.params_key, if_pos h1, if_pos h2, if_pos h3]
    show (match reg.value (LibRs.paramsPath m) LibRs.edidValueName with
      | .error e => some (Except.error (LibRs.MonitorError.GetEdid m e))
      | .ok (.Binary bytes) => some (Except.ok bytes)
      | .ok .Other => none) = none
    rw [hval]

/-- Registry for the C2 witness: every key opens and the value read
yields binary bytes. -/
def c2wreg : LibRs.Registry :=
  { openOk := fun _ => true, value := fun _ _ => .ok (.Binary [0, 255, 18]) }

/-- Witness for C2 (amended): a present binary EDID value is returned as
`Ok(bytes)`. -/
theorem C2_edid_amended_witness :
    LibRs.Monitor.edid c2wreg c2mon = some (.ok [0, 255, 18]) :=
  (C2_edid_amended c2wreg c2mon).2.2.1 ⟨rfl, rfl, rfl⟩ [0, 255, 18] rfl

namespace LibRs

/-- Host for `Monitor::intersecting`: `getWindowDC` models
`GetWindowDC` (`none` = null device context), `lastError` models
`GetLastError`, `handles` the monitors enumerated by
`EnumDisplayMonitors`, and `deviceID` the `DISPLAY_DEVICEW.DeviceID`
buffer produced by `GetMonitorInfoW` followed by `EnumDisplayDevicesW`
for a handle (`none` = `EnumDisplayDevicesW` returned 0, on which the
callback executes `panic!()`). -/
structure IntersectHost where
  getWindowDC : ℕ → Option ℕ
  lastError : ℕ
  handles : List ℕ
  deviceID : ℕ → Option (List ℕ)

/-- Per-handle body of the enumeration callback (lib.rs 100-133);
`none` is the `panic!()` on a failed `EnumDisplayDevicesW`. -/
def intersectStep (host : IntersectHost) (h : ℕ) :
    Option (Except MonitorError Monitor) :=
  match host.deviceID h with
  | none => none
  | some buf => some (Monitor.from_interface_name (wchars_to_string buf))

/-- Sequence a list of possibly-panicking steps: any panic aborts the
whole enumeration. -/
def allSome {α : Type} : List (Option α) → Option (List α)
  | [] => some []
  | none :: _ => none
  | some a :: rest => (allSome rest).map (fun l => a :: l)

/-- Embedding of `Monitor::intersecting` (lib.rs 90-142).  The outer
`none` models a panic: either the `assert!(!window.is_null())` (window
handle `0`) or a `panic!()` inside the enumeration callback. -/
def Monitor.intersecting (host : IntersectHost) (window : ℕ) :
    Option (Except MonitorError (List Monitor)) :=
  if window = 0 then none
  else
    match host.getWindowDC window with
    | none => some (.error (.ListIntersecting window host.lastError))
    | some _ =>
      match allSome (host.handles.map (intersectStep host)) with
      | none => none
      | some results => some (collectExcept results)

theorem allSome_mem {α : Type} (l : List (Option α)) (r : List α)
    (h : allSome l = some r) : ∀ x ∈ r, some x ∈ l := by
  induction l generalizing r with
  | nil =>
    simp only [allSome, Option.some_inj] at h
    subst h
    simp
  | cons o rest ih =>
    match o with
    | none => simp [allSome] at h
    | some a =>
      simp only [allSome] at h
      cases hr : allSome rest with
      | none => rw [hr] at h; simp [Option.map] at h
      | some r2 =>
        rw [hr] at h
        simp only [Option.map, Option.some_inj] at h
        subst h
        intro x hx
        rcases List.mem_cons.mp hx with hh | ht
        · simp [hh]
        · exact List.mem_cons_of_mem _ (ih r2 hr x ht)

theorem from_iface_error_eq (name : List Char) (e : MonitorError)
    (h : Monitor.from_interface_name name = .error e) : e = .InvalidInterface name := by
  rw [Monitor.from_interface_name] at h
  cases hp : parseIface name with
  | none =>
    rw [hp] at h
    simpa using h.symm
  | some pr =>
    rw [hp] at h
    exact absurd h (by simp)

end LibRs

/-- C10: `Monitor::intersecting` asserts a non-null window handle — a
null handle panics rather than returning any `MonitorError`; for a
non-null handle whose device context the host cannot produce, it returns
`Err(ListIntersecting)` carrying the handle and the last OS error code;
and a `ListIntersecting` error arises only that way (per-item callback
failures are `InvalidInterface`, never `ListIntersecting`). -/
theorem C10_intersecting_null_assert (host : LibRs.IntersectHost) (w : ℕ) :
    (w = 0 → LibRs.Monitor.intersecting host w = none)
      ∧ (w ≠ 0 → host.getWindowDC w = none →
          LibRs.Monitor.intersecting host w
            = some (.error (.ListIntersecting w host.lastError)))
      ∧ (∀ a c, LibRs.Monitor.intersecting host w
            = some (.error (.ListIntersecting a c)) →
          host.getWindowDC w = none ∧ a = w ∧ c = host.lastError) := by
  refine ⟨?_, ?_, ?_⟩
  · intro h0
    rw [LibRs.Monitor.intersecting, if_pos h0]
  · intro hw hdc
    rw [LibRs.Monitor.intersecting, if_neg hw, hdc]
  · intro a c hres
    by_cases h0 : w = 0
    · rw [LibRs.Monitor.intersecting, if_pos h0] at hres
      exact absurd hres (by simp)
    · rw [LibRs.Monitor.intersecting, if_neg h0] at hres
      cases hdc : host.getWindowDC w with
      | none =>
        rw [hdc] at hres
        simp only [Option.some_inj, Except.error.injEq,
          LibRs.MonitorError.ListIntersecting.injEq] at hres
        exact ⟨rfl, hres.1.symm, hres.2.symm⟩
      | some dc =>
        rw [hdc] at hres
        exfalso
        cases hall : LibRs.allSome (host.handles.map (LibRs.intersectStep host)) with
        | none => rw [hall] at hres; exact absurd hres (by simp)
        | some results =>
          rw [hall] at hres
          simp only [Option.some_inj] at hres
          have hmem := collectExcept_error_mem results _ hres
          have hsome := LibRs.allSome_mem _ _ hall _ hmem
          rw [List.mem_map] at hsome
          obtain ⟨hm, -, hstep⟩ := hsome
          rw [LibRs.intersectStep] at hstep
          cases hdev : host.deviceID hm with
          | none => rw [hdev] at hstep; exact absurd hstep (by simp)
          | some buf =>
            rw [hdev] at hstep
            simp only [Option.some_inj] at hstep
            have := LibRs.from_iface_error_eq _ _ hstep
            exact absurd this (by simp)

/-- Host for the C10 witness: no window has a device context. -/
def c10host : LibRs.IntersectHost :=
  { getWindowDC := fun _ => none, lastError := 87, handles := [],
    deviceID := fun _ => none }

/-- Witness for C10: a null handle panics; handle 5 with no device
context yields `ListIntersecting 5` with the last error code 87. -/
theorem C10_intersecting_null_assert_witness :
    LibRs.Monitor.intersecting c10host 0 = none
      ∧ LibRs.Monitor.intersecting c10host 5
          = some (.error (.ListIntersecting 5 87)) :=
  ⟨(C10_intersecting_null_assert c10host 0).1 rfl,
   (C10_intersecting_null_assert c10host 5).2.1 (by decide) rfl⟩
